import Mathlib

/-
Verification of the translation core of the BigQuery remote-storage adapter
(package bigquerydb, file client.go): the write path (tagsFromMetric, Write),
the read query builder (buildCommand, escapeSingleQuotes, escapeSlashes) and
the result merger (rowToSample, mergeResult, Read).

Shallow embedding notes:
  * Go float64 sample values are modelled by `FloatVal`: the adapter only
    branches on math.IsNaN / math.IsInf and otherwise copies the value, so a
    finite payload (kept as a rational) plus the three non-finite points is an
    exact model of the control flow.
  * Go maps (model.Metric, the tags map) are modelled as association lists
    with overwrite-on-insert; Go's encoding/json marshals maps with sorted
    keys, which makes the serialized form deterministic.
  * prompb int64 timestamps are Lean `Int`s; Go integer division truncates
    toward zero, which is `Int.tdiv`.
  * encoding/json's Unmarshal (used on the read path) is external library
    code and is passed to the merger model as a parse oracle
    `String → Except Unit GoJson`; every theorem quantifies over it.
  * Go's randomized map iteration order (the final `for _, ts := range tsMap`
    in Read) is modelled relationally: `IsReadResult` accepts any permutation
    of the accumulated series.
-/

namespace BigqueryAdapter

/-- Model of a Go float64 as used by the adapter: a finite value (payload kept
as a rational) or one of the three non-finite points that math.IsNaN and
math.IsInf distinguish. -/
inductive FloatVal where
  | finite (x : Rat)
  | nan
  | posInf
  | negInf
deriving DecidableEq, Repr

/-- math.IsNaN. -/
def FloatVal.isNaN : FloatVal → Bool
  | FloatVal.nan => true
  | _ => false

/-- math.IsInf(v, 0), i.e. v is plus or minus infinity. -/
def FloatVal.isInf : FloatVal → Bool
  | FloatVal.posInf => true
  | FloatVal.negInf => true
  | _ => false

/-- One prompb.Label. -/
structure Label where
  name : String
  value : String
deriving DecidableEq, Repr

/-- One prompb.Sample: value and int64 timestamp in milliseconds. -/
structure Sample where
  timestamp : Int
  value : FloatVal
deriving DecidableEq, Repr

/-- One prompb.TimeSeries. -/
structure TimeSeries where
  labels : List Label
  samples : List Sample
deriving DecidableEq, Repr

/-- model.MetricNameLabel. -/
def metricNameLabel : String := "__name__"

/-- A Go map from label name to label value (model.Metric), as an association
list whose keys are kept unique by `mapInsert`. -/
abbrev Metric := List (String × String)

/-- Go map assignment `m[k] = v`: any previous binding of k is replaced. -/
def mapInsert (m : Metric) (k v : String) : Metric :=
  m.filter (fun p => p.1 != k) ++ [(k, v)]

/-- Go map read `m[k]` on a map of strings: the zero value "" when absent. -/
def mapGet (m : Metric) (k : String) : String :=
  match m.find? (fun p => p.1 == k) with
  | some p => p.2
  | none => ""

/-- The loop in Write that fills a model.Metric from ts.Labels. -/
def metricFromLabels (ls : List Label) : Metric :=
  ls.foldl (fun m l => mapInsert m l.name l.value) []

/-- Lower-case hexadecimal digit, as used by encoding/json's escaper. -/
def hexDigitChar (n : Nat) : Char :=
  if n < 10 then Char.ofNat (48 + n) else Char.ofNat (87 + n)

/-- encoding/json's escaping of one character inside a JSON string literal
(default encoder: HTML-escapes the angle brackets and ampersand, shorthands
for newline, carriage return and tab, \u00XX for other control characters,
and a six-character escape for the two unicode line separators). -/
def jsonEscapeChar (c : Char) : String :=
  if c = '"' then "\\\""
  else if c = '\\' then "\\\\"
  else if c = '\n' then "\\n"
  else if c = '\r' then "\\r"
  else if c = '\t' then "\\t"
  else if c = '<' ∨ c = '>' ∨ c = '&' then
    "\\u00" ++ String.mk [hexDigitChar (c.toNat / 16), hexDigitChar (c.toNat % 16)]
  else if c.toNat < 32 then
    "\\u00" ++ String.mk [hexDigitChar (c.toNat / 16), hexDigitChar (c.toNat % 16)]
  else if c.toNat = 8232 ∨ c.toNat = 8233 then
    "\\u202" ++ String.mk [hexDigitChar (c.toNat % 16)]
  else String.singleton c

/-- encoding/json's escaping of a whole string. -/
def jsonEscapeString (s : String) : String :=
  String.join (s.data.map jsonEscapeChar)

/-- A JSON string literal. -/
def jsonString (s : String) : String :=
  "\"" ++ jsonEscapeString s ++ "\""

/-- Insertion step of the ascending sort by key that encoding/json applies to
map keys before serializing. -/
def insertPairSorted (p : String × String) : List (String × String) → List (String × String)
  | [] => [p]
  | q :: rest => if p.1 < q.1 then p :: q :: rest else q :: insertPairSorted p rest

/-- encoding/json serializes a map with its keys in ascending order. -/
def sortPairs (ps : List (String × String)) : List (String × String) :=
  ps.foldr insertPairSorted []

/-- The JSON object text produced by encoding/json for a string-to-string
map whose entries are already in serialization order. -/
def jsonObject (ps : List (String × String)) : String :=
  "\x7b" ++ String.intercalate "," (ps.map (fun p => jsonString p.1 ++ ":" ++ jsonString p.2)) ++ "\x7d"

/-- The entries that tagsFromMetric marshals: every label except the reserved
metric-name label, in encoding/json's key order. -/
def tagsPairs (m : Metric) : List (String × String) :=
  sortPairs (m.filter (fun p => p.1 != metricNameLabel))

/-- tagsFromMetric: drop the metric-name label and marshal the rest to one
JSON object string (the marshal error is ignored by the source and cannot
occur for a map of strings). -/
def tagsFromMetric (m : Metric) : String :=
  jsonObject (tagsPairs m)

/-- Item: one row sent to the warehouse. -/
structure Item where
  value : FloatVal
  metricname : String
  timestamp : Int
  tags : String
deriving DecidableEq, Repr

/-- model.Time(x).Unix(): the millisecond timestamp divided by 1000 with
Go's truncating (toward zero) integer division. -/
def modelTimeUnix (t : Int) : Int :=
  Int.tdiv t 1000

/-- The Item literal built by Write for one kept sample. -/
def itemOfSample (metric : Metric) (tags : String) (s : Sample) : Item :=
  { value := s.value
    metricname := mapGet metric metricNameLabel
    timestamp := modelTimeUnix s.timestamp
    tags := tags }

/-- The skip condition in Write: math.IsNaN(v) || math.IsInf(v, 0). -/
def sampleSkipped (s : Sample) : Bool :=
  s.value.isNaN || s.value.isInf

/-- The externally observable actions of one Write call: the per-series
recordsFetched counter addition, one ignoredSamples counter increment per
skipped sample, and the single inserter.Put of the accumulated batch. -/
inductive WriteEffect where
  | recordsFetched (n : Nat)
  | ignoreSample
  | put (batch : List Item)
deriving DecidableEq, Repr

/-- Whether an effect is the insertion call. -/
def WriteEffect.isPut : WriteEffect → Bool
  | WriteEffect.put _ => true
  | _ => false

/-- The inner sample loop of Write: skip non-finite values (incrementing the
ignored-samples counter), append an Item to the batch otherwise. -/
def writeSamples (metric : Metric) (tags : String) (acc : List Item × List WriteEffect) :
    List Sample → List Item × List WriteEffect
  | [] => acc
  | s :: rest =>
    if sampleSkipped s then
      writeSamples metric tags (acc.1, acc.2 ++ [WriteEffect.ignoreSample]) rest
    else
      writeSamples metric tags (acc.1 ++ [itemOfSample metric tags s], acc.2) rest

/-- The per-series body of Write's outer loop: bump recordsFetched by the
sample count, build the metric map and tag blob once, then run the sample
loop. -/
def writeSeries (acc : List Item × List WriteEffect) (ts : TimeSeries) :
    List Item × List WriteEffect :=
  writeSamples (metricFromLabels ts.labels) (tagsFromMetric (metricFromLabels ts.labels))
    (acc.1, acc.2 ++ [WriteEffect.recordsFetched ts.samples.length]) ts.samples

/-- The outer loop of Write over all submitted series. -/
def writeRun (acc : List Item × List WriteEffect) : List TimeSeries → List Item × List WriteEffect
  | [] => acc
  | ts :: rest => writeRun (writeSeries acc ts) rest

/-- The full effect trace of one Write call: the loop's counter effects
followed by the one inserter.Put of the whole accumulated batch. -/
def writeEffects (tss : List TimeSeries) : List WriteEffect :=
  (writeRun ([], []) tss).2 ++ [WriteEffect.put (writeRun ([], []) tss).1]

/-- The batch Write hands to inserter.Put. -/
def writeBatch (tss : List TimeSeries) : List Item :=
  (writeRun ([], []) tss).1

/-- The items one series contributes to the batch: one per finite-valued
sample, in sample order. -/
def seriesItems (ts : TimeSeries) : List Item :=
  (ts.samples.filter (fun s => !sampleSkipped s)).map
    (itemOfSample (metricFromLabels ts.labels) (tagsFromMetric (metricFromLabels ts.labels)))

/-- The ignoredSamples and recordsFetched effects one series contributes. -/
def seriesEffects (ts : TimeSeries) : List WriteEffect :=
  WriteEffect.recordsFetched ts.samples.length ::
    (ts.samples.filter sampleSkipped).map (fun _ => WriteEffect.ignoreSample)

/-- The single-quote character, which the source escapes in metric-name
string literals. -/
def quoteChar : Char := Char.ofNat 39

/-- escapeSingleQuotes: strings.ReplaceAll(str, single quote, backslash
single quote). -/
def escapeSingleQuotes (s : String) : String :=
  String.join (s.data.map (fun c => if c = quoteChar then "\\\x27" else String.singleton c))

/-- escapeSlashes: strings.ReplaceAll(str, slash, backslash slash). -/
def escapeSlashes (s : String) : String :=
  String.join (s.data.map (fun c => if c = '/' then "\\/" else String.singleton c))

/-- prompb.LabelMatcher_Type: the four wire values plus the default branch
for any other numeric value of the int32 enum. -/
inductive MatcherType where
  | eq
  | neq
  | re
  | nre
  | other (n : Int)
deriving DecidableEq, Repr

/-- prompb.LabelMatcher. -/
structure LabelMatcher where
  type : MatcherType
  name : String
  value : String
deriving DecidableEq, Repr

/-- prompb.Query: millisecond bounds and the matcher list. -/
structure Query where
  startMs : Int
  endMs : Int
  matchers : List LabelMatcher
deriving Repr

/-- The body of buildCommand's matcher loop: the predicate fragment emitted
for one matcher, or the unknown-match-type error.  Metric-name matchers are
compared against the metricname column (value escaped for quotes in the
literal kinds and for slashes in the regex kinds); any other label is
extracted from the tags JSON blob, with IFNULL supplying the quoted empty
string when the key is absent, and the raw matcher name and value are
interpolated into the fragment. -/
def translateMatcher (m : LabelMatcher) : Except String String :=
  if m.name = metricNameLabel then
    match m.type with
    | MatcherType.eq =>
      Except.ok ("metricname = \x27" ++ escapeSingleQuotes m.value ++ "\x27")
    | MatcherType.neq =>
      Except.ok ("metricname != \x27" ++ escapeSingleQuotes m.value ++ "\x27")
    | MatcherType.re =>
      Except.ok ("REGEXP_CONTAINS(metricname, r\x27" ++ escapeSlashes m.value ++ "\x27)")
    | MatcherType.nre =>
      Except.ok ("not REGEXP_CONTAINS(metricname, r\x27" ++ escapeSlashes m.value ++ "\x27)")
    | MatcherType.other n => Except.error ("unknown match type " ++ toString n)
  else
    match m.type with
    | MatcherType.eq =>
      Except.ok ("IFNULL(JSON_EXTRACT(tags, \x27$." ++ m.name ++ "\x27), \x27\"\"\x27) = \x27\""
        ++ m.value ++ "\"\x27")
    | MatcherType.neq =>
      Except.ok ("IFNULL(JSON_EXTRACT(tags, \x27$." ++ m.name ++ "\x27), \x27\"\"\x27) != \x27\""
        ++ m.value ++ "\"\x27")
    | MatcherType.re =>
      Except.ok ("REGEXP_CONTAINS(IFNULL(JSON_EXTRACT(tags, \x27$." ++ m.name
        ++ "\x27), \x27\"\"\x27), r\x27\"" ++ m.value ++ "\"\x27)")
    | MatcherType.nre =>
      Except.ok ("not REGEXP_CONTAINS(IFNULL(JSON_EXTRACT(tags, \x27$." ++ m.name
        ++ "\x27), \x27\"\"\x27), r\x27\"" ++ m.value ++ "\"\x27)")
    | MatcherType.other n => Except.error ("unknown match type " ++ toString n)

/-- buildCommand's matcher loop: one predicate per matcher, failing fast at
the first unsupported matcher kind. -/
def buildMatchers : List LabelMatcher → Except String (List String)
  | [] => Except.ok []
  | m :: rest =>
    match translateMatcher m with
    | Except.error e => Except.error e
    | Except.ok p =>
      match buildMatchers rest with
      | Except.error e => Except.error e
      | Except.ok ps => Except.ok (p :: ps)

/-- buildCommand: matcher predicates plus the two inclusive timestamp bounds,
conjoined with AND into the SELECT ... ORDER BY timestamp template. -/
def buildCommand (datasetID tableID : String) (q : Query) : Except String String :=
  match buildMatchers q.matchers with
  | Except.error e => Except.error e
  | Except.ok ps =>
    Except.ok ("SELECT metricname, tags, UNIX_MILLIS(timestamp) as timestamp, value FROM "
      ++ datasetID ++ "." ++ tableID ++ " WHERE "
      ++ String.intercalate " AND "
          (ps ++ ["timestamp >= TIMESTAMP_MILLIS(" ++ toString q.startMs ++ ")",
                  "timestamp <= TIMESTAMP_MILLIS(" ++ toString q.endMs ++ ")"])
      ++ " ORDER BY timestamp")

/-- The dynamic value Go's json.Unmarshal produces in an interface variable:
JSON strings, numbers, booleans, null, arrays and objects. -/
inductive GoJson where
  | str (s : String)
  | num (q : Rat)
  | bool (b : Bool)
  | null
  | arr (elems : List GoJson)
  | obj (kvs : List (String × GoJson))
deriving Repr

/-- A dynamically typed bigquery.Value cell of a returned row. -/
inductive BQValue where
  | str (s : String)
  | int (i : Int)
  | float (v : FloatVal)
  | bool (b : Bool)
deriving DecidableEq, Repr

/-- One row returned by the warehouse.  A cell is none when the column is
absent from the row map (the Go map read then yields a nil interface). -/
structure Row where
  tags : Option BQValue
  metricname : Option BQValue
  timestamp : Option BQValue
  value : Option BQValue
deriving DecidableEq, Repr

/-- The Go type assertion cell.(string): the string when the dynamic type
matches, otherwise the assertion panics (modelled by none). -/
def asString : Option BQValue → Option String
  | some (BQValue.str s) => some s
  | _ => none

/-- The Go type assertion cell.(int64). -/
def asInt : Option BQValue → Option Int
  | some (BQValue.int i) => some i
  | _ => none

/-- The Go type assertion cell.(float64). -/
def asFloat : Option BQValue → Option FloatVal
  | some (BQValue.float v) => some v
  | _ => none

/-- The per-entry assertion value.(string) applied over a decoded JSON
object: all entry values must be strings, otherwise some assertion panics. -/
def allStrings : List (String × GoJson) → Option (List (String × String))
  | [] => some []
  | (k, GoJson.str v) :: rest =>
    match allStrings rest with
    | some r => some ((k, v) :: r)
    | none => none
  | _ :: _ => none

/-- The assertion v.(map[string]interface) followed by the per-entry string
assertions: succeeds exactly for a JSON object all of whose values are
strings. -/
def isObjStrings : GoJson → Option (List (String × String))
  | GoJson.obj kvs => allStrings kvs
  | _ => none

/-- Insertion step of the ascending sort by label name that rowToSample
applies to the reconstructed label pairs (sort.Slice on Name). -/
def insertLabelSorted (l : Label) : List Label → List Label
  | [] => [l]
  | x :: xs => if l.name < x.name then l :: x :: xs else x :: insertLabelSorted l xs

/-- rowToSample's final sort of the label pairs by name. -/
def sortLabels (ls : List Label) : List Label :=
  ls.foldr insertLabelSorted []

/-- The possible outcomes of rowToSample: a decoded sample with its metric
map and sorted label pairs, the error return (failed json.Unmarshal of the
tags blob), or a runtime panic from one of the unchecked type assertions. -/
inductive RowOutcome where
  | ok (s : Sample) (metric : Metric) (labels : List Label)
  | err
  | crash
deriving DecidableEq, Repr

/-- rowToSample, parameterized by the json.Unmarshal oracle.  The source
asserts row tags .(string), unmarshals it (returning the error on failure),
asserts the decoded value to a string map, builds the label pairs and the
metric map, appends the metric-name label from the metricname cell, sorts
the pairs by name, and reads the timestamp and value cells with int64 and
float64 assertions. -/
def rowToSample (parse : String → Except Unit GoJson) (row : Row) : RowOutcome :=
  match asString row.tags with
  | none => RowOutcome.crash
  | some labelsJSON =>
    match parse labelsJSON with
    | Except.error _ => RowOutcome.err
    | Except.ok v =>
      match isObjStrings v with
      | none => RowOutcome.crash
      | some pairs =>
        match asString row.metricname with
        | none => RowOutcome.crash
        | some mn =>
          match asInt row.timestamp, asFloat row.value with
          | some t, some fv =>
            RowOutcome.ok ⟨t, fv⟩
              (mapInsert (pairs.foldl (fun m p => mapInsert m p.1 p.2) []) metricNameLabel mn)
              (sortLabels (pairs.map (fun p => Label.mk p.1 p.2) ++ [Label.mk metricNameLabel mn]))
          | _, _ => RowOutcome.crash

/-- The fingerprint-keyed accumulator map of Read, with entries kept in
insertion order. -/
abbrev TsMap := List (Nat × TimeSeries)

/-- The map update in mergeResult: append the sample to the series of this
fingerprint, creating the entry (with the row's label pairs) when absent. -/
def insertSample (m : TsMap) (fp : Nat) (labels : List Label) (s : Sample) : TsMap :=
  match m.find? (fun e => e.1 == fp) with
  | none => m ++ [(fp, ⟨labels, [s]⟩)]
  | some _ =>
    m.map (fun e => if e.1 == fp then (e.1, ⟨e.2.labels, e.2.samples ++ [s]⟩) else e)

/-- The outcome of draining one row iterator (or of a whole Read call's
merge phase): the accumulated map, the propagated rowToSample error, or a
runtime panic. -/
inductive MergeOutcome where
  | ok (m : TsMap)
  | err
  | crash
deriving Repr

/-- mergeResult, parameterized by the json.Unmarshal oracle and by the
fingerprint function of the label-set map (model.Metric.Fingerprint, an
external deterministic hash). -/
def mergeResult (parse : String → Except Unit GoJson) (fp : Metric → Nat)
    (m : TsMap) : List Row → MergeOutcome
  | [] => MergeOutcome.ok m
  | row :: rest =>
    match rowToSample parse row with
    | RowOutcome.err => MergeOutcome.err
    | RowOutcome.crash => MergeOutcome.crash
    | RowOutcome.ok s metric labels =>
      mergeResult parse fp (insertSample m (fp metric) labels s) rest

/-- Read's loop over the sub-queries: each sub-query's returned rows are
merged into the one shared map; a mergeResult error aborts the call. -/
def readMerge (parse : String → Except Unit GoJson) (fp : Metric → Nat)
    (m : TsMap) : List (List Row) → MergeOutcome
  | [] => MergeOutcome.ok m
  | rows :: rest =>
    match mergeResult parse fp m rows with
    | MergeOutcome.ok m2 => readMerge parse fp m2 rest
    | MergeOutcome.err => MergeOutcome.err
    | MergeOutcome.crash => MergeOutcome.crash

/-- The merge phase of one Read call, starting from the empty fingerprint
map, given the row lists returned for the sub-queries in order. -/
def readMergeOutcome (parse : String → Except Unit GoJson) (fp : Metric → Nat)
    (rowsPerQuery : List (List Row)) : MergeOutcome :=
  readMerge parse fp [] rowsPerQuery

/-- The relation between a Read call's inputs and its returned value.  The
final response is built by ranging over the Go map, whose iteration order
is unspecified, so any permutation of the accumulated series is a possible
result; a merge error is returned as an error with no series, and a panic
returns nothing at all. -/
def IsReadResult (parse : String → Except Unit GoJson) (fp : Metric → Nat)
    (rowsPerQuery : List (List Row)) (res : Except Unit (List TimeSeries)) : Prop :=
  match readMergeOutcome parse fp rowsPerQuery with
  | MergeOutcome.ok m => ∃ l, res = Except.ok l ∧ List.Perm l (m.map Prod.snd)
  | MergeOutcome.err => res = Except.error ()
  | MergeOutcome.crash => False

/-- Concrete result rows with distinct metric names ("a" and "bb"), used to
exhibit the unspecified response order of Read. -/
def rowA : Row :=
  ⟨some (BQValue.str "\x7b\x7d"), some (BQValue.str "a"), some (BQValue.int 0),
    some (BQValue.float (FloatVal.finite 1))⟩

/-- Companion row to rowA with metric name "bb". -/
def rowB : Row :=
  ⟨some (BQValue.str "\x7b\x7d"), some (BQValue.str "bb"), some (BQValue.int 0),
    some (BQValue.float (FloatVal.finite 1))⟩

/-- The series reconstructed from rowA. -/
def tsA : TimeSeries := ⟨[⟨metricNameLabel, "a"⟩], [⟨0, FloatVal.finite 1⟩]⟩

/-- The series reconstructed from rowB. -/
def tsB : TimeSeries := ⟨[⟨metricNameLabel, "bb"⟩], [⟨0, FloatVal.finite 1⟩]⟩

/-- A parse oracle consistent with both rows' tag blobs being the empty
JSON object. -/
def parseEmptyObj : String → Except Unit GoJson := fun _ => Except.ok (GoJson.obj [])

/-- A concrete fingerprint function separating the two rows' label sets. -/
def fpNameLen : Metric → Nat := fun m => (mapGet m metricNameLabel).length

lemma writeSamples_eq (met : Metric) (t : String) (samples : List Sample) :
    ∀ b e, writeSamples met t (b, e) samples =
      (b ++ (samples.filter (fun s => !sampleSkipped s)).map (itemOfSample met t),
       e ++ (samples.filter sampleSkipped).map (fun _ => WriteEffect.ignoreSample)) := by
  induction samples with
  | nil => intro b e; simp [writeSamples]
  | cons s rest ih =>
    intro b e
    by_cases hs : sampleSkipped s
    · simp [writeSamples, hs, ih, List.filter_cons, List.append_assoc]
    · simp [writeSamples, hs, ih, List.filter_cons, List.append_assoc]

lemma writeRun_eq (tss : List TimeSeries) :
    ∀ acc, writeRun acc tss
      = (acc.1 ++ tss.flatMap seriesItems, acc.2 ++ tss.flatMap seriesEffects) := by
  induction tss with
  | nil => intro acc; simp [writeRun]
  | cons ts rest ih =>
    intro acc
    show writeRun (writeSeries acc ts) rest = _
    rw [ih, writeSeries, writeSamples_eq]
    simp [seriesItems, seriesEffects, List.flatMap_cons, List.append_assoc]

lemma count_ignore_bind (tss : List TimeSeries) :
    (tss.flatMap seriesEffects).count WriteEffect.ignoreSample
      = (tss.map (fun ts => (ts.samples.filter sampleSkipped).length)).sum := by
  induction tss with
  | nil => rfl
  | cons ts rest ih =>
    have hmap : ∀ l : List Sample,
        ((l.map (fun _ => WriteEffect.ignoreSample)).count WriteEffect.ignoreSample) = l.length := by
      intro l
      induction l with
      | nil => rfl
      | cons x xs ihx => simp [List.count_cons, ihx]
    simp [List.flatMap_cons, List.count_append, seriesEffects, List.count_cons, ih, hmap]

lemma countP_put_bind (tss : List TimeSeries) :
    (tss.flatMap seriesEffects).countP (fun e => e.isPut) = 0 := by
  apply List.countP_eq_zero.mpr
  intro e he
  rcases List.mem_flatMap.mp he with ⟨ts, hts, hes⟩
  rcases List.mem_cons.mp hes with rfl | hmem
  · simp [WriteEffect.isPut]
  · rcases List.mem_map.mp hmem with ⟨s, hs, rfl⟩
    simp [WriteEffect.isPut]

/-- C3: Write skips a sample exactly when its value is NaN or plus or minus
infinity, each skipped sample increments the ignored-samples counter exactly
once and stores nothing, and each finite sample yields exactly one Item in
the batch. -/
theorem claim3 (tss : List TimeSeries) :
    writeBatch tss = tss.flatMap seriesItems
  ∧ (∀ ts, seriesItems ts = (ts.samples.filter (fun s => !sampleSkipped s)).map
      (itemOfSample (metricFromLabels ts.labels) (tagsFromMetric (metricFromLabels ts.labels))))
  ∧ (writeEffects tss).count WriteEffect.ignoreSample
      = (tss.map (fun ts => (ts.samples.filter sampleSkipped).length)).sum
  ∧ (∀ s : Sample, sampleSkipped s = true ↔
      (s.value = FloatVal.nan ∨ s.value = FloatVal.posInf ∨ s.value = FloatVal.negInf)) := by
  refine ⟨?_, fun ts => rfl, ?_, ?_⟩
  · simp [writeBatch, writeRun_eq]
  · unfold writeEffects
    rw [writeRun_eq tss ([], [])]
    simp [List.count_append, count_ignore_bind, List.count_cons]
  · intro s
    cases hv : s.value <;> simp [sampleSkipped, FloatVal.isNaN, FloatVal.isInf, hv]

/-- C5: one Write call performs exactly one insertion call, whose batch is
the concatenation of the encoded records of all samples of all series. -/
theorem claim5 (tss : List TimeSeries) :
    (writeEffects tss).countP (fun e => e.isPut) = 1
  ∧ writeEffects tss
      = (writeRun ([], []) tss).2 ++ [WriteEffect.put (tss.flatMap seriesItems)]
  ∧ writeBatch tss = tss.flatMap seriesItems := by
  refine ⟨?_, ?_, ?_⟩
  · unfold writeEffects
    rw [writeRun_eq tss ([], [])]
    simp only [List.nil_append]
    rw [List.countP_append, countP_put_bind]
    rfl
  · unfold writeEffects
    rw [writeRun_eq tss ([], [])]
    simp
  · simp [writeBatch, writeRun_eq]

/-- C6 evaluation: a sample with millisecond timestamp 1500 is stored with
timestamp 1 (whole seconds, model.Time.Unix), not 1500. -/
theorem claim6_eval :
    writeBatch [⟨[⟨metricNameLabel, "m"⟩], [⟨1500, FloatVal.finite 1⟩]⟩]
      = [⟨FloatVal.finite 1, "m", 1, "\x7b\x7d"⟩]
    ∧ modelTimeUnix 1500 ≠ 1500 := by
  exact ⟨rfl, by decide⟩

lemma buildMatchers_length (ms : List LabelMatcher) :
    ∀ ps, buildMatchers ms = Except.ok ps → ps.length = ms.length := by
  induction ms with
  | nil =>
    intro ps h
    simp only [buildMatchers] at h
    cases h
    rfl
  | cons m rest ih =>
    intro ps h
    simp only [buildMatchers] at h
    cases ht : translateMatcher m with
    | error e => rw [ht] at h; cases h
    | ok p =>
      rw [ht] at h
      cases hr : buildMatchers rest with
      | error e => rw [hr] at h; cases h
      | ok ps2 =>
        rw [hr] at h
        cases h
        simp [ih ps2 hr]

/-- C1: for a matcher on any label other than the reserved metric-name label,
buildCommand's per-matcher translation extracts the key from the tags JSON
blob with IFNULL defaulting a missing key to the quoted empty string, and
compares the extraction to the quoted JSON string literal of the matcher
value: equality with =, inequality with !=, regex kinds with a
REGEXP_CONTAINS test, negated for regex-non-match; the inequality predicate
differs from the equality predicate. -/
theorem claim1 (m : LabelMatcher) (h : m.name ≠ metricNameLabel) :
    (m.type = MatcherType.eq → translateMatcher m =
      Except.ok ("IFNULL(JSON_EXTRACT(tags, \x27$." ++ m.name ++ "\x27), \x27\"\"\x27) = \x27\""
        ++ m.value ++ "\"\x27"))
  ∧ (m.type = MatcherType.neq → translateMatcher m =
      Except.ok ("IFNULL(JSON_EXTRACT(tags, \x27$." ++ m.name ++ "\x27), \x27\"\"\x27) != \x27\""
        ++ m.value ++ "\"\x27"))
  ∧ (m.type = MatcherType.re → translateMatcher m =
      Except.ok ("REGEXP_CONTAINS(IFNULL(JSON_EXTRACT(tags, \x27$." ++ m.name
        ++ "\x27), \x27\"\"\x27), r\x27\"" ++ m.value ++ "\"\x27)"))
  ∧ (m.type = MatcherType.nre → translateMatcher m =
      Except.ok ("not REGEXP_CONTAINS(IFNULL(JSON_EXTRACT(tags, \x27$." ++ m.name
        ++ "\x27), \x27\"\"\x27), r\x27\"" ++ m.value ++ "\"\x27)"))
  ∧ translateMatcher ⟨MatcherType.eq, m.name, m.value⟩
      ≠ translateMatcher ⟨MatcherType.neq, m.name, m.value⟩ := by
  refine ⟨?_, ?_, ?_, ?_, ?_⟩
  · intro ht; simp [translateMatcher, if_neg h, ht]
  · intro ht; simp [translateMatcher, if_neg h, ht]
  · intro ht; simp [translateMatcher, if_neg h, ht]
  · intro ht; simp [translateMatcher, if_neg h, ht]
  · simp only [translateMatcher, if_neg h]
    intro heq
    rw [Except.ok.injEq] at heq
    have hl := congrArg String.length heq
    simp only [String.length_append] at hl
    have e1 : ("\x27), \x27\"\"\x27) = \x27\"" : String).length = 14 := rfl
    have e2 : ("\x27), \x27\"\"\x27) != \x27\"" : String).length = 15 := rfl
    omega

/-- C1 witness at a concrete matcher. -/
theorem claim1_witness :
    translateMatcher ⟨MatcherType.eq, "job", "x"⟩
      = Except.ok ("IFNULL(JSON_EXTRACT(tags, \x27$." ++ "job" ++ "\x27), \x27\"\"\x27) = \x27\""
        ++ "x" ++ "\"\x27") :=
  (claim1 ⟨MatcherType.eq, "job", "x"⟩ (by decide)).1 rfl

/-- C2 evaluation: the label branch interpolates the matcher value without
any escaping, so a single quote in the value lands unescaped inside the
emitted predicate (malformed literal), and the metric-name regex branch
escapes only slashes, letting a quote through as well, even though the
escape helper exists and would have rewritten it. -/
theorem claim2_eval :
    translateMatcher ⟨MatcherType.eq, "job", "a\x27b"⟩
      = Except.ok ("IFNULL(JSON_EXTRACT(tags, \x27$.job\x27), \x27\"\"\x27) = \x27\"a\x27b\"\x27")
  ∧ translateMatcher ⟨MatcherType.re, metricNameLabel, "a\x27b"⟩
      = Except.ok ("REGEXP_CONTAINS(metricname, r\x27a\x27b\x27)")
  ∧ escapeSingleQuotes "a\x27b" = "a\\\x27b" :=
  ⟨rfl, rfl, rfl⟩

/-- C8: buildCommand emits the SELECT template whose WHERE clause conjoins
one predicate per matcher with the two inclusive TIMESTAMP_MILLIS bounds,
joined by AND, and whose text ends with the ascending ORDER BY timestamp
clause. -/
theorem claim8 (datasetID tableID : String) (q : Query) (s : String)
    (h : buildCommand datasetID tableID q = Except.ok s) :
    ∃ ps, buildMatchers q.matchers = Except.ok ps
      ∧ ps.length = q.matchers.length
      ∧ s = "SELECT metricname, tags, UNIX_MILLIS(timestamp) as timestamp, value FROM "
            ++ datasetID ++ "." ++ tableID ++ " WHERE "
            ++ String.intercalate " AND "
                (ps ++ ["timestamp >= TIMESTAMP_MILLIS(" ++ toString q.startMs ++ ")",
                        "timestamp <= TIMESTAMP_MILLIS(" ++ toString q.endMs ++ ")"])
            ++ " ORDER BY timestamp" := by
  unfold buildCommand at h
  cases hm : buildMatchers q.matchers with
  | error e => rw [hm] at h; cases h
  | ok ps =>
    rw [hm] at h
    cases h
    exact ⟨ps, rfl, buildMatchers_length _ _ hm, rfl⟩

/-- C8 witness: the command built for an empty matcher list over bounds 0
and 5. -/
theorem claim8_witness :
    ∃ ps, buildMatchers (Query.mk 0 5 []).matchers = Except.ok ps
      ∧ ps.length = (Query.mk 0 5 []).matchers.length
      ∧ "SELECT metricname, tags, UNIX_MILLIS(timestamp) as timestamp, value FROM d.t WHERE timestamp >= TIMESTAMP_MILLIS(0) AND timestamp <= TIMESTAMP_MILLIS(5) ORDER BY timestamp"
        = "SELECT metricname, tags, UNIX_MILLIS(timestamp) as timestamp, value FROM "
          ++ "d" ++ "." ++ "t" ++ " WHERE "
          ++ String.intercalate " AND "
              (ps ++ ["timestamp >= TIMESTAMP_MILLIS(" ++ toString (Query.mk 0 5 []).startMs ++ ")",
                      "timestamp <= TIMESTAMP_MILLIS(" ++ toString (Query.mk 0 5 []).endMs ++ ")"])
          ++ " ORDER BY timestamp" :=
  claim8 "d" "t" (Query.mk 0 5 [])
    "SELECT metricname, tags, UNIX_MILLIS(timestamp) as timestamp, value FROM d.t WHERE timestamp >= TIMESTAMP_MILLIS(0) AND timestamp <= TIMESTAMP_MILLIS(5) ORDER BY timestamp"
    rfl

lemma rowToSample_err_iff (parse : String → Except Unit GoJson) (row : Row) :
    rowToSample parse row = RowOutcome.err ↔
      ∃ s, asString row.tags = some s ∧ parse s = Except.error () := by
  unfold rowToSample
  cases ht : asString row.tags with
  | none => simp
  | some s =>
    simp only [Option.some.injEq]
    cases hp : parse s with
    | error e =>
      cases e
      simp [hp]
    | ok v =>
      cases hv : isObjStrings v with
      | none => simp [hp, hv]
      | some pairs =>
        cases hmn : asString row.metricname with
        | none => simp [hp, hv, hmn]
        | some mn =>
          cases hti : asInt row.timestamp with
          | none =>
            cases hva : asFloat row.value <;> simp [hp, hv, hmn, hti, hva]
          | some t =>
            cases hva : asFloat row.value <;> simp [hp, hv, hmn, hti, hva]

/-- C10: rowToSample's error return covers exactly a tags cell that is a
string failing json.Unmarshal; a tags cell of the wrong dynamic type, a
decoded value that is not an object of string values, or a metricname,
timestamp or value cell of the wrong dynamic type all take the unchecked
type-assertion panic path instead of the error return. -/
theorem claim10 (parse : String → Except Unit GoJson) (row : Row) :
    (rowToSample parse row = RowOutcome.err ↔
      ∃ s, asString row.tags = some s ∧ parse s = Except.error ())
  ∧ (asString row.tags = none → rowToSample parse row = RowOutcome.crash)
  ∧ (∀ s j, asString row.tags = some s → parse s = Except.ok j → isObjStrings j = none →
      rowToSample parse row = RowOutcome.crash)
  ∧ (∀ s j pairs, asString row.tags = some s → parse s = Except.ok j →
      isObjStrings j = some pairs →
      (asString row.metricname = none ∨ asInt row.timestamp = none ∨
        asFloat row.value = none) →
      rowToSample parse row = RowOutcome.crash) := by
  refine ⟨rowToSample_err_iff parse row, ?_, ?_, ?_⟩
  · intro ht
    unfold rowToSample
    simp [ht]
  · intro s j ht hp hj
    unfold rowToSample
    simp [ht, hp, hj]
  · intro s j pairs ht hp hj hbad
    unfold rowToSample
    rcases hbad with hmn | hti | hva
    · simp [ht, hp, hj, hmn]
    · cases hmn : asString row.metricname with
      | none => simp [ht, hp, hj, hmn]
      | some mn =>
        cases hva : asFloat row.value <;> simp [ht, hp, hj, hmn, hti, hva]
    · cases hmn : asString row.metricname with
      | none => simp [ht, hp, hj, hmn]
      | some mn =>
        cases hti : asInt row.timestamp <;> simp [ht, hp, hj, hmn, hti, hva]

/-- C10 witness: a row whose tags blob decodes to a JSON array reaches the
panic path, not the error return. -/
theorem claim10_witness :
    rowToSample (fun _ => Except.ok (GoJson.arr []))
      ⟨some (BQValue.str "[]"), some (BQValue.str "m"), some (BQValue.int 0),
        some (BQValue.float (FloatVal.finite 1))⟩ = RowOutcome.crash :=
  (claim10 (fun _ => Except.ok (GoJson.arr []))
      ⟨some (BQValue.str "[]"), some (BQValue.str "m"), some (BQValue.int 0),
        some (BQValue.float (FloatVal.finite 1))⟩).2.2.1 "[]" (GoJson.arr []) rfl rfl rfl

lemma mergeResult_err (parse : String → Except Unit GoJson) (fp : Metric → Nat)
    (rows : List Row) (h1 : ∀ r ∈ rows, rowToSample parse r ≠ RowOutcome.crash)
    (h2 : ∃ r ∈ rows, rowToSample parse r = RowOutcome.err) :
    ∀ m, mergeResult parse fp m rows = MergeOutcome.err := by
  induction rows with
  | nil =>
    rcases h2 with ⟨r, hr, _⟩
    cases hr
  | cons row rest ih =>
    intro m
    cases hr : rowToSample parse row with
    | err => simp [mergeResult, hr]
    | crash => exact absurd hr (h1 row (List.mem_cons_self _ _))
    | ok s metric labels =>
      simp only [mergeResult, hr]
      apply ih
      · intro r hrr
        exact h1 r (List.mem_cons_of_mem _ hrr)
      · rcases h2 with ⟨r, hrm, hre⟩
        rcases List.mem_cons.mp hrm with rfl | htail
        · rw [hr] at hre; cases hre
        · exact ⟨r, htail, hre⟩

lemma mergeResult_ok (parse : String → Except Unit GoJson) (fp : Metric → Nat)
    (rows : List Row) (h1 : ∀ r ∈ rows, rowToSample parse r ≠ RowOutcome.crash)
    (h2 : ∀ r ∈ rows, rowToSample parse r ≠ RowOutcome.err) :
    ∀ m, ∃ m2, mergeResult parse fp m rows = MergeOutcome.ok m2 := by
  induction rows with
  | nil => exact fun m => ⟨m, rfl⟩
  | cons row rest ih =>
    intro m
    cases hr : rowToSample parse row with
    | err => exact absurd hr (h2 row (List.mem_cons_self _ _))
    | crash => exact absurd hr (h1 row (List.mem_cons_self _ _))
    | ok s metric labels =>
      simp only [mergeResult, hr]
      exact ih (fun r hrr => h1 r (List.mem_cons_of_mem _ hrr))
        (fun r hrr => h2 r (List.mem_cons_of_mem _ hrr)) _

lemma readMerge_err (parse : String → Except Unit GoJson) (fp : Metric → Nat)
    (qs : List (List Row))
    (h1 : ∀ r ∈ qs.flatten, rowToSample parse r ≠ RowOutcome.crash)
    (h2 : ∃ r ∈ qs.flatten, rowToSample parse r = RowOutcome.err) :
    ∀ m, readMerge parse fp m qs = MergeOutcome.err := by
  induction qs with
  | nil =>
    rcases h2 with ⟨r, hr, _⟩
    simp at hr
  | cons rows rest ih =>
    intro m
    have h1head : ∀ r ∈ rows, rowToSample parse r ≠ RowOutcome.crash := fun r hr =>
      h1 r (List.mem_flatten.mpr ⟨rows, List.mem_cons_self _ _, hr⟩)
    by_cases hex : ∃ r ∈ rows, rowToSample parse r = RowOutcome.err
    · have hm := mergeResult_err parse fp rows h1head hex m
      simp [readMerge, hm]
    · have hok := mergeResult_ok parse fp rows h1head
        (fun r hr he => hex ⟨r, hr, he⟩) m
      rcases hok with ⟨m2, hm2⟩
      simp only [readMerge, hm2]
      apply ih
      · intro r hr
        exact h1 r (List.mem_flatten.mpr
          (by rcases List.mem_flatten.mp hr with ⟨l, hl, hrl⟩
              exact ⟨l, List.mem_cons_of_mem _ hl, hrl⟩))
      · rcases h2 with ⟨r, hrj, hre⟩
        rcases List.mem_flatten.mp hrj with ⟨l, hl, hrl⟩
        rcases List.mem_cons.mp hl with rfl | hltail
        · exact absurd ⟨r, hrl, hre⟩ hex
        · exact ⟨r, List.mem_flatten.mpr ⟨l, hltail, hrl⟩, hre⟩

/-- C7: when every returned row otherwise has the expected dynamic cell
types but some row's tags blob is malformed JSON, the whole merge returns
the error outcome and any Read result is the error return carrying no
series. -/
theorem claim7 (parse : String → Except Unit GoJson) (fp : Metric → Nat)
    (rowsPerQuery : List (List Row))
    (hclean : ∀ r ∈ rowsPerQuery.flatten, rowToSample parse r ≠ RowOutcome.crash)
    (hbad : ∃ r ∈ rowsPerQuery.flatten, ∃ s, asString r.tags = some s ∧
      parse s = Except.error ()) :
    readMergeOutcome parse fp rowsPerQuery = MergeOutcome.err
    ∧ ∀ res, IsReadResult parse fp rowsPerQuery res → res = Except.error () := by
  have hbad2 : ∃ r ∈ rowsPerQuery.flatten, rowToSample parse r = RowOutcome.err := by
    rcases hbad with ⟨r, hr, s, hs, hp⟩
    exact ⟨r, hr, (rowToSample_err_iff parse r).2 ⟨s, hs, hp⟩⟩
  have hout : readMergeOutcome parse fp rowsPerQuery = MergeOutcome.err :=
    readMerge_err parse fp rowsPerQuery hclean hbad2 []
  refine ⟨hout, ?_⟩
  intro res hres
  unfold IsReadResult at hres
  rw [hout] at hres
  exact hres

/-- C7 witness: one sub-query returning one otherwise well-typed row whose
tags blob fails to parse. -/
theorem claim7_witness :
    readMergeOutcome (fun _ => Except.error ()) (fun _ => 0)
      [[⟨some (BQValue.str "x"), some (BQValue.str "m"), some (BQValue.int 0),
          some (BQValue.float (FloatVal.finite 1))⟩]] = MergeOutcome.err :=
  (claim7 (fun _ => Except.error ()) (fun _ => 0)
    [[⟨some (BQValue.str "x"), some (BQValue.str "m"), some (BQValue.int 0),
        some (BQValue.float (FloatVal.finite 1))⟩]]
    (by decide)
    ⟨⟨some (BQValue.str "x"), some (BQValue.str "m"), some (BQValue.int 0),
        some (BQValue.float (FloatVal.finite 1))⟩, by decide, "x", rfl, rfl⟩).1

lemma insertPairSorted_perm (p : String × String) (l : List (String × String)) :
    List.Perm (insertPairSorted p l) (p :: l) := by
  induction l with
  | nil => simp [insertPairSorted]
  | cons q rest ih =>
    simp only [insertPairSorted]
    by_cases hpq : p.1 < q.1
    · simp [hpq]
    · simp only [if_neg hpq]
      exact (ih.cons q).trans (List.Perm.swap p q rest)

lemma sortPairs_perm (l : List (String × String)) : List.Perm (sortPairs l) l := by
  induction l with
  | nil => simp [sortPairs]
  | cons p rest ih =>
    exact (insertPairSorted_perm p (sortPairs rest)).trans (ih.cons p)

/-- C4: the tags blob is the JSON object of exactly the labels other than
the reserved metric-name label, the metric-name key itself never occurs
among its entries, and a label set with no other labels marshals to the
empty JSON object with no error. -/
theorem claim4 (m : Metric) :
    (∀ k v, (k, v) ∈ tagsPairs m ↔ ((k, v) ∈ m ∧ k ≠ metricNameLabel))
  ∧ (∀ v, (metricNameLabel, v) ∉ tagsPairs m)
  ∧ tagsFromMetric m = jsonObject (tagsPairs m)
  ∧ (m.filter (fun p => p.1 != metricNameLabel) = [] → tagsFromMetric m = "\x7b\x7d") := by
  have hmem : ∀ k v, (k, v) ∈ tagsPairs m ↔ ((k, v) ∈ m ∧ k ≠ metricNameLabel) := by
    intro k v
    unfold tagsPairs
    rw [(sortPairs_perm _).mem_iff, List.mem_filter]
    simp
  refine ⟨hmem, ?_, rfl, ?_⟩
  · intro v hv
    exact ((hmem _ _).1 hv).2 rfl
  · intro hf
    unfold tagsFromMetric tagsPairs
    rw [hf]
    rfl

/-- C4 witness at concrete label sets. -/
theorem claim4_witness :
    (("job", "x") ∈ tagsPairs [(metricNameLabel, "up"), ("job", "x")])
  ∧ tagsFromMetric [(metricNameLabel, "up")] = "\x7b\x7d" :=
  ⟨((claim4 [(metricNameLabel, "up"), ("job", "x")]).1 "job" "x").2 (by decide),
   (claim4 [(metricNameLabel, "up")]).2.2.2 (by decide)⟩

/-- C9 (amended): two Read calls over the same returned row sets (each call
starting from the empty fingerprint map) agree up to series order: either
both error, or their series lists are permutations of each other, so the
same set of series with identical label sets and sample sequences. -/
theorem claim9 (parse : String → Except Unit GoJson) (fp : Metric → Nat)
    (rowsPerQuery : List (List Row)) (res1 res2 : Except Unit (List TimeSeries))
    (h1 : IsReadResult parse fp rowsPerQuery res1)
    (h2 : IsReadResult parse fp rowsPerQuery res2) :
    (∀ l1 l2, res1 = Except.ok l1 → res2 = Except.ok l2 → List.Perm l1 l2)
    ∧ (res1 = Except.error () ↔ res2 = Except.error ()) := by
  unfold IsReadResult at h1 h2
  cases ho : readMergeOutcome parse fp rowsPerQuery with
  | ok m =>
    rw [ho] at h1 h2
    rcases h1 with ⟨l1, e1, p1⟩
    rcases h2 with ⟨l2, e2, p2⟩
    subst e1
    subst e2
    constructor
    · intro l1' l2' q1 q2
      injection q1 with q1
      injection q2 with q2
      subst q1
      subst q2
      exact p1.trans p2.symm
    · constructor <;> intro hbad <;> exact Except.noConfusion hbad
  | err =>
    rw [ho] at h1 h2
    subst h1
    subst h2
    exact ⟨fun l1 l2 q1 => Except.noConfusion q1, Iff.rfl⟩
  | crash =>
    rw [ho] at h1
    exact h1.elim

/-- C9 witness: the degenerate read with no sub-queries. -/
theorem claim9_witness : List.Perm ([] : List TimeSeries) ([] : List TimeSeries) :=
  (claim9 parseEmptyObj fpNameLen [] (Except.ok []) (Except.ok [])
    ⟨[], rfl, List.Perm.refl []⟩ ⟨[], rfl, List.Perm.refl []⟩).1 [] [] rfl rfl

/-- C9 counterexample: for the same two-row input, both series orders are
possible Read results, so the series order of a call is not a function of
the row set and is not stable between two calls. -/
theorem claim9_counterexample :
    IsReadResult parseEmptyObj fpNameLen [[rowA, rowB]] (Except.ok [tsA, tsB])
  ∧ IsReadResult parseEmptyObj fpNameLen [[rowA, rowB]] (Except.ok [tsB, tsA])
  ∧ [tsA, tsB] ≠ [tsB, tsA] := by
  refine ⟨⟨[tsA, tsB], rfl, ?_⟩, ⟨[tsB, tsA], rfl, ?_⟩, by decide⟩
  · decide
  · decide

end BigqueryAdapter
